import Mathlib

/-!
Shallow embedding of the streaming-I/O core of the LinuxVideo library
(src/stream.rs): buffer-pool allocation, the read stream, the write stream,
the read buffer view, and the teardown (Drop) glue. Kernel ioctl outcomes and
callback results are passed in explicitly as environment values; machine
pointers are abstracted to byte lists; buffer indices and error codes are
natural numbers.
-/

deriving instance DecidableEq for Except

namespace LinuxVideo

/-- One streaming buffer (`Buffer` in src/stream.rs). The mapped region is
represented by the bytes visible through it; `length` in the source equals
`data.length` here. -/
structure Buffer where
  data : List Nat
  queued : Bool
deriving DecidableEq

instance : Inhabited Buffer := ⟨⟨[], false⟩⟩

/-- Behaviour of the kernel and of `libc::mmap` during one call to
`Buffers::allocate`: the REQBUFS outcome (`none` means the ioctl failed,
`some g` means `req_bufs.count` came back as `g`), the per-index QUERYBUF and
mmap outcomes, and the bytes of each mapped region. -/
structure AllocEnv where
  granted : Option Nat
  queryOk : Nat → Bool
  mapOk : Nat → Bool
  bufData : Nat → List Nat

/-- The query-and-map loop of `Buffers::allocate` (src/stream.rs lines 70-105).
The second component records the indices whose regions have been mmapped and
not munmapped when the function returns: the source contains no munmap call on
any path of `allocate` (`Buffer` has no `Drop` impl; only the `Buffers` struct,
which is never constructed on the error paths, unmaps). Error codes: 1 = mmap
failed, 2 = QUERYBUF failed. -/
def Buffers.allocLoop (env : AllocEnv) :
    List Nat → List Buffer → List Nat → Except Nat (List Buffer) × List Nat
  | [], acc, mapped => (Except.ok acc, mapped)
  | i :: rest, acc, mapped =>
    if env.queryOk i then
      if env.mapOk i then
        Buffers.allocLoop env rest (acc ++ [⟨env.bufData i, false⟩]) (mapped ++ [i])
      else (Except.error 1, mapped)
    else (Except.error 2, mapped)

/-- `Buffers::allocate` (src/stream.rs lines 42-111): REQBUFS, then, when the
kernel granted fewer buffers than requested, the granted count replaces the
requested one, then the query-and-map loop. Error code 0 = REQBUFS failed.
The second component is the list of still-mapped regions at return. -/
def Buffers.allocate (env : AllocEnv) (requested : Nat) :
    Except Nat (List Buffer) × List Nat :=
  match env.granted with
  | none => (Except.error 0, [])
  | some g =>
      let count := if g < requested then g else requested
      Buffers.allocLoop env (List.range count) [] []

/-- `WriteStream` state relevant to queue management (src/stream.rs lines
327-334): the per-buffer `queued` flags (position = driver-visible index) and
the `next_unqueued_buffer` cursor. The buffer bytes play no role in the
queueing logic and are not carried here. -/
structure WriteStream where
  queued : List Bool
  next_unqueued_buffer : Option Nat
deriving DecidableEq

/-- `WriteStream::new` (src/stream.rs lines 337-353): a freshly allocated pool
(every buffer unqueued) and the cursor at index 0. -/
def WriteStream.new (buffer_count : Nat) : WriteStream :=
  ⟨List.replicate buffer_count false, some 0⟩

/-- `WriteStream::new` applied to the buffers returned by `Buffers::allocate`. -/
def WriteStream.fromBuffers (bufs : List Buffer) : WriteStream :=
  ⟨bufs.map Buffer.queued, some 0⟩

/-- Outcomes supplied by the kernel and the caller during one call to
`WriteStream::enqueue`: the VIDIOC_DQBUF result (the dequeued index, used only
when the cursor is empty), the callback result, and the VIDIOC_QBUF result. -/
structure WEnv where
  dq : Except Nat Nat
  cbRes : Except Nat Nat
  qbuf : Except Nat Unit
deriving DecidableEq

/-- Result of one `WriteStream::enqueue` call. `assertFailed` is the
`assert!(!buffer.queued)` at src/stream.rs line 397 firing; `badIndex` is the
Rust bounds-check panic on `self.buffers.buffers[buf_index]`. -/
inductive WOutcome where
  | ok (val : Nat)
  | err (code : Nat)
  | assertFailed
  | badIndex
deriving DecidableEq

/-- Body of `WriteStream::enqueue` (src/stream.rs lines 396-432) from the
point where `buf_index` is known: bounds check, the queued assert, the
callback, the re-enqueue (`enqueue_buffer`, which marks the buffer queued only
when QBUF succeeds), and the cursor update. `dequeued` records whether the
call issued VIDIOC_DQBUF and is returned unchanged as the third component. -/
def WriteStream.enqueueAt (s : WriteStream) (bufIndex : Nat) (e : WEnv)
    (dequeued : Bool) : WOutcome × WriteStream × Bool :=
  if bufIndex < s.queued.length then
    if s.queued.getD bufIndex false then
      (WOutcome.assertFailed, s, dequeued)
    else
      match e.cbRes with
      | Except.ok val =>
          match e.qbuf with
          | Except.ok _ =>
              let q := s.queued.set bufIndex true
              let next :=
                match s.next_unqueued_buffer with
                | some i => if i + 1 = s.queued.length then none else some (i + 1)
                | none => none
              (WOutcome.ok val, ⟨q, next⟩, dequeued)
          | Except.error c =>
              (WOutcome.err c, ⟨s.queued, some bufIndex⟩, dequeued)
      | Except.error c =>
          (WOutcome.err c, ⟨s.queued, some bufIndex⟩, dequeued)
  else (WOutcome.badIndex, s, dequeued)

/-- `WriteStream::enqueue` (src/stream.rs lines 374-433): take the cursor
buffer when the cursor is non-empty, otherwise dequeue one from the kernel
(marking it unqueued), then run the shared body. -/
def WriteStream.enqueue (s : WriteStream) (e : WEnv) :
    WOutcome × WriteStream × Bool :=
  match s.next_unqueued_buffer with
  | some i => WriteStream.enqueueAt s i e false
  | none =>
      match e.dq with
      | Except.error c => (WOutcome.err c, s, true)
      | Except.ok idx =>
          if idx < s.queued.length then
            WriteStream.enqueueAt ⟨s.queued.set idx false, s.next_unqueued_buffer⟩
              idx e true
          else (WOutcome.badIndex, s, true)

/-- Run a sequence of `WriteStream::enqueue` calls, threading the state. -/
def WriteStream.run (s : WriteStream) : List WEnv → WriteStream
  | [] => s
  | e :: rest => WriteStream.run (WriteStream.enqueue s e).2.1 rest

/-- A call environment under which this enqueue call fully succeeds and the
kernel behaves legally: the callback and QBUF succeed, and when a dequeue is
needed, DQBUF returns an in-range index that is currently queued. -/
def WEnv.okFor (e : WEnv) (s : WriteStream) : Prop :=
  (∃ v, e.cbRes = Except.ok v) ∧ e.qbuf = Except.ok () ∧
    (s.next_unqueued_buffer = none →
      ∃ idx, e.dq = Except.ok idx ∧ idx < s.queued.length ∧
        s.queued.getD idx false = true)

/-- An error-free, kernel-legal run of `WriteStream::enqueue` calls. -/
def okRun : WriteStream → List WEnv → Prop
  | _, [] => True
  | s, e :: rest => e.okFor s ∧ okRun (WriteStream.enqueue s e).2.1 rest

/-- Queue-state invariant of an error-free `WriteStream`: while the cursor
holds `some i`, indices at or after `i` are unqueued and indices before `i`
are queued; once the cursor is empty, every buffer is queued. -/
def WriteStream.inv (s : WriteStream) : Prop :=
  (∀ i, s.next_unqueued_buffer = some i →
    i < s.queued.length ∧
    (∀ j, i ≤ j → j < s.queued.length → s.queued.getD j false = false) ∧
    (∀ j, j < i → s.queued.getD j false = true)) ∧
  (s.next_unqueued_buffer = none →
    ∀ j, j < s.queued.length → s.queued.getD j false = true)

/-- Cursor update performed by one successful `WriteStream::enqueue` call on a
pool of `n` buffers. -/
def stepCursor (n : Nat) : Option Nat → Option Nat
  | some i => if i + 1 = n then none else some (i + 1)
  | none => none

/-- `stepCursor` iterated `k` times. -/
def cursorIter (n : Nat) (c : Option Nat) : Nat → Option Nat
  | 0 => c
  | k + 1 => cursorIter n (stepCursor n c) k

/-- The buffer index a `WriteStream::enqueue` call selects and hands to the
callback: the cursor index when the cursor is non-empty, otherwise the index
DQBUF returns; `none` when the call panics on the bounds check or DQBUF
fails. -/
def WriteStream.selects (s : WriteStream) (e : WEnv) : Option Nat :=
  match s.next_unqueued_buffer with
  | some i => if i < s.queued.length then some i else none
  | none =>
      match e.dq with
      | Except.ok idx => if idx < s.queued.length then some idx else none
      | Except.error _ => none

/-- The error that a `WriteStream::enqueue` call reports when the callback or
the re-enqueue fails: the callback error takes effect first, else the QBUF
error. -/
def WEnv.triggerErr (e : WEnv) : Option Nat :=
  match e.cbRes with
  | Except.error c => some c
  | Except.ok _ =>
      match e.qbuf with
      | Except.error c => some c
      | Except.ok _ => none

/-- `ReadStream` state relevant to the claims: the buffer pool (src/stream.rs
lines 128-134; the file handle and type tags do not influence the queue
logic). -/
structure ReadStream where
  buffers : List Buffer
deriving DecidableEq

/-- `ReadStream` built over the buffers returned by `Buffers::allocate`. -/
def ReadStream.ofBuffers (bufs : List Buffer) : ReadStream := ⟨bufs⟩

/-- Overwrite the `queued` flag of buffer `i` (out-of-range writes cannot
occur in the source paths modelled; `List.set` is then the identity). -/
def ReadStream.setQueued (s : ReadStream) (i : Nat) (b : Bool) : ReadStream :=
  ⟨s.buffers.set i { s.buffers.getD i default with queued := b }⟩

/-- `ReadStream::enqueue` (src/stream.rs lines 158-171): VIDIOC_QBUF, and only
when it succeeds, mark the buffer queued. -/
def ReadStream.enqueue (s : ReadStream) (qbuf : Except Nat Unit) (index : Nat) :
    Except Nat ReadStream :=
  match qbuf with
  | Except.error c => Except.error c
  | Except.ok _ => Except.ok (s.setQueued index true)

/-- Loop body of `ReadStream::enqueue_all` (src/stream.rs lines 173-180) over
the listed indices: enqueue each buffer that is not already queued, stopping
at the first QBUF failure. `qb i` is the VIDIOC_QBUF outcome for index `i`. -/
def ReadStream.enqueueAllLoop (qb : Nat → Except Nat Unit) (s : ReadStream) :
    List Nat → Except Nat ReadStream
  | [] => Except.ok s
  | i :: rest =>
      if (s.buffers.getD i default).queued then
        ReadStream.enqueueAllLoop qb s rest
      else
        match s.enqueue (qb i) i with
        | Except.error c => Except.error c
        | Except.ok s2 => ReadStream.enqueueAllLoop qb s2 rest

/-- `ReadStream::enqueue_all`: the loop runs over indices `0..len`. -/
def ReadStream.enqueue_all (qb : Nat → Except Nat Unit) (s : ReadStream) :
    Except Nat ReadStream :=
  ReadStream.enqueueAllLoop qb s (List.range s.buffers.length)

/-- What VIDIOC_DQBUF reports for the dequeued buffer: its index, the
`bytesused` count and the status flags word. -/
structure DqResult where
  index : Nat
  bytesused : Nat
  flags : Nat
deriving DecidableEq

/-- Kernel outcomes during one `ReadStream::dequeue` call: the DQBUF result
and the outcome of the re-enqueue QBUF. -/
structure REnv where
  dq : Except Nat DqResult
  qbuf : Except Nat Unit
deriving DecidableEq

/-- Result of a `ReadStream::dequeue` call: a returned `io::Result`, or the
Rust bounds-check panic on `self.buffers.buffers[buf.index as usize]`. -/
inductive ROutcome where
  | res (r : Except Nat Nat)
  | badIndex
deriving DecidableEq

/-- Immutable view into a dequeued read buffer (`ReadBufferView`,
src/stream.rs lines 288-292): the raw flags word, the full mapped region and
the kernel-reported used byte count. -/
structure ReadBufferView where
  flags : Nat
  data : List Nat
  bytesused : Nat
deriving DecidableEq

/-- The `BufFlag::ERROR` bit (src/shared.rs line 442). -/
def BufFlag.ERROR : Nat := 0x40

/-- `bitflags` `contains`: every bit of `mask` is set in `flags`. -/
def bfContains (flags mask : Nat) : Bool := flags &&& mask == mask

/-- `ReadBufferView::is_error` (src/stream.rs lines 299-301). -/
def ReadBufferView.is_error (v : ReadBufferView) : Bool :=
  bfContains v.flags BufFlag.ERROR

/-- `ReadBufferView::raw_buffer` (src/stream.rs lines 313-315): the entire
backing buffer. -/
def ReadBufferView.raw_buffer (v : ReadBufferView) : List Nat := v.data

/-- The `Deref` impl (src/stream.rs lines 318-325): the used portion
`data[..bytesused]`. Rust panics when `bytesused > data.len()`; the claims
only concern `bytesused ≤ capacity`, where `take` agrees with the slice. -/
def ReadBufferView.deref (v : ReadBufferView) : List Nat :=
  v.data.take v.bytesused

/-- The view constructed inside `ReadStream::dequeue` (src/stream.rs lines
227-233) for a DQBUF report `d`: the full region of the dequeued buffer together
with the reported flags and used count. -/
def ReadStream.viewOf (s : ReadStream) (d : DqResult) : ReadBufferView :=
  ⟨d.flags, (s.buffers.getD d.index default).data, d.bytesused⟩

/-- `ReadStream::dequeue` (src/stream.rs lines 213-241): DQBUF; on success
mark the reported buffer unqueued, hand the view to the callback, then
unconditionally re-enqueue that same buffer; a re-enqueue failure replaces the
result of the callback, otherwise the result of the callback is returned. -/
def ReadStream.dequeue (s : ReadStream) (e : REnv)
    (cb : ReadBufferView → Except Nat Nat) : ROutcome × ReadStream :=
  match e.dq with
  | Except.error c => (ROutcome.res (Except.error c), s)
  | Except.ok d =>
      if d.index < s.buffers.length then
        let sMid := s.setQueued d.index false
        let r := cb (s.viewOf d)
        match e.qbuf with
        | Except.error c => (ROutcome.res (Except.error c), sMid)
        | Except.ok _ => (ROutcome.res r, sMid.setQueued d.index true)
      else (ROutcome.badIndex, s)

/-- Every buffer of the pool is queued. -/
def ReadStream.allQueued (s : ReadStream) : Prop :=
  ∀ j, j < s.buffers.length → (s.buffers.getD j default).queued = true

/-- Observable side effects of the teardown paths. -/
inductive DropEv where
  | streamOff
  | munmap (index : Nat)
deriving DecidableEq

/-- `Drop for Buffers` (src/stream.rs lines 114-126): munmap every buffer in
index order (munmap errors are logged and ignored). -/
def Buffers.dropEvents (n : Nat) : List DropEv :=
  (List.range n).map DropEv.munmap

/-- `Drop for ReadStream` (src/stream.rs lines 270-276): `stream_off` first —
its result is discarded with `.ok()`, so the STREAMOFF outcome `so` does not
alter the sequence — then the fields are dropped, which runs
`Drop for Buffers`. -/
def ReadStream.dropEvents (_so : Except Nat Unit) (n : Nat) : List DropEv :=
  DropEv.streamOff :: Buffers.dropEvents n

/-- `WriteStream` has no `Drop` impl in src/stream.rs: dropping one only
drops its fields, so exactly `Drop for Buffers` runs and no STREAMOFF ioctl
is issued. -/
def WriteStream.dropEvents (n : Nat) : List DropEv :=
  Buffers.dropEvents n

/-- Call environment for a fully successful `WriteStream::enqueue` call that
needs no dequeue (the DQBUF slot carries an error and is never consulted while
the cursor is non-empty). -/
def envOkNoDq : WEnv := ⟨Except.error 9, Except.ok 0, Except.ok ()⟩

/-- Call environment in which DQBUF succeeds with index 0 but the callback
fails with error 7. -/
def envCbFailDq0 : WEnv := ⟨Except.ok 0, Except.error 7, Except.ok ()⟩

/-- A two-buffer read stream with both buffers queued. -/
def rsTwoQueued : ReadStream := ⟨[⟨[5], true⟩, ⟨[6], true⟩]⟩

/-- AllocEnv in which REQBUFS grants two buffers, QUERYBUF always succeeds,
and mmap succeeds for index 0 but fails for index 1. -/
def envPartialMap : AllocEnv :=
  ⟨some 2, fun _ => true, fun i => i == 0, fun _ => List.replicate 4 0⟩

/-- AllocEnv in which REQBUFS grants a single buffer and querying and mapping
it succeed. -/
def envGrantOne : AllocEnv :=
  ⟨some 1, fun _ => true, fun _ => true, fun _ => List.replicate 4 0⟩

theorem getD_set_self {α : Type} (l : List α) (i : Nat) (a d : α)
    (h : i < l.length) : (l.set i a).getD i d = a := by
  induction l generalizing i with
  | nil => simp at h
  | cons x xs ih =>
      cases i with
      | zero => rfl
      | succ n => simpa using ih n (by simpa using h)

theorem getD_set_ne {α : Type} (l : List α) (i j : Nat) (a d : α)
    (h : i ≠ j) : (l.set i a).getD j d = l.getD j d := by
  induction l generalizing i j with
  | nil => simp
  | cons x xs ih =>
      cases i with
      | zero =>
          cases j with
          | zero => exact absurd rfl h
          | succ m => simp
      | succ n =>
          cases j with
          | zero => simp
          | succ m => simpa using ih n m (by omega)

theorem getD_replicate_false (n j : Nat) :
    (List.replicate n false).getD j false = false := by
  induction n generalizing j with
  | zero => simp [List.getD]
  | succ m ih =>
      cases j with
      | zero => rfl
      | succ k => simp

/-- C2: with two granted buffers, a successful query-and-map of buffer 0 and a
failing mmap of buffer 1, `Buffers::allocate` propagates the error while the
region of buffer 0 is still mapped — the partial mapping is not rolled back
(the source has no munmap on this path), contradicting the claim that every
previously mapped region is unmapped before the error is propagated. -/
theorem c2_mapping_rollback_missing :
    (Buffers.allocate envPartialMap 2).1 = Except.error 1 ∧
    (Buffers.allocate envPartialMap 2).2 = [0] := by decide

/-- C4: a concrete five-call interaction with a fresh two-buffer write stream
on which the `assert!(!buffer.queued)` in `WriteStream::enqueue` fires. The
first two calls succeed and queue both buffers (conjuncts 1 and 2, which also
show that the DQBUF of the third call legally returns queued index 0); the
callback of the third call fails, restoring the cursor to index 0; the fourth call
succeeds, after which the cursor advance wrongly lands on still-queued
index 1 (conjunct 3); the fifth call then trips the assert (conjunct 4). -/
theorem c4_enqueue_assert_reachable :
    ((WriteStream.new 2).run [envOkNoDq, envOkNoDq]).queued = [true, true] ∧
    ((WriteStream.new 2).run [envOkNoDq, envOkNoDq]).next_unqueued_buffer = none ∧
    (WriteStream.new 2).run [envOkNoDq, envOkNoDq, envCbFailDq0, envOkNoDq] =
      ⟨[true, true], some 1⟩ ∧
    (((WriteStream.new 2).run
        [envOkNoDq, envOkNoDq, envCbFailDq0, envOkNoDq]).enqueue envOkNoDq).1 =
      WOutcome.assertFailed := by decide

/-- C3 counterexample: dropping a `WriteStream` over a two-buffer pool unmaps
both regions and never issues the stream-off ioctl (`WriteStream` has no
`Drop` impl), so the claimed stream-off-before-unmap ordering fails for
`WriteStream`. -/
theorem c3_write_drop_counterexample :
    WriteStream.dropEvents 2 = [DropEv.munmap 0, DropEv.munmap 1] ∧
    (WriteStream.dropEvents 2).count DropEv.streamOff = 0 := by decide

/-- C5 counterexample: on a two-buffer read stream with both buffers queued, a
dequeue of buffer 0 whose re-enqueue fails (QBUF error 7) returns, leaving
buffer 0 unqueued — so after this dequeue call has returned, not every buffer
is queued, contrary to the claim. -/
theorem c5_requeue_failure_counterexample :
    ((rsTwoQueued.dequeue ⟨Except.ok ⟨0, 1, 0⟩, Except.error 7⟩
        (fun _ => Except.ok 0)).2.buffers.getD 0 default).queued = false ∧
    (rsTwoQueued.dequeue ⟨Except.ok ⟨0, 1, 0⟩, Except.error 7⟩
        (fun _ => Except.ok 0)).1 = ROutcome.res (Except.error 7) := by decide

/-- C6 counterexample: on a fresh two-buffer write stream, after two
successful calls every buffer has been queued at least once (conjunct 1 —
the cursor is exhausted in the sense of the claim); the third call dequeues
buffer 0 and its callback fails; the fourth call, made after exhaustion, then
completes successfully without issuing any dequeue ioctl (conjuncts 2 and 3),
contrary to the claim that every call after exhaustion first dequeues. -/
theorem c6_post_exhaustion_counterexample :
    ((WriteStream.new 2).run [envOkNoDq, envOkNoDq]).queued = [true, true] ∧
    (((WriteStream.new 2).run
        [envOkNoDq, envOkNoDq, envCbFailDq0]).enqueue envOkNoDq).2.2 = false ∧
    (((WriteStream.new 2).run
        [envOkNoDq, envOkNoDq, envCbFailDq0]).enqueue envOkNoDq).1 =
      WOutcome.ok 0 := by decide

/-- C9 counterexample: on a fresh two-buffer write stream, after one
successful enqueue the cursor is `some 1` while buffer 0 — an index before
the cursor — is queued, contrary to the claim that the cursor index and all
indices before it are unqueued. -/
theorem c9_cursor_counterexample :
    ((WriteStream.new 2).run [envOkNoDq]).next_unqueued_buffer = some 1 ∧
    ((WriteStream.new 2).run [envOkNoDq]).queued.getD 0 false = true := by decide

theorem Buffers.allocLoop_ok (env : AllocEnv) (l : List Nat) (acc : List Buffer)
    (mapped : List Nat) (bufs : List Buffer)
    (h : (Buffers.allocLoop env l acc mapped).1 = Except.ok bufs) :
    bufs.length = acc.length + l.length ∧
    (Buffers.allocLoop env l acc mapped).2 = mapped ++ l := by
  induction l generalizing acc mapped with
  | nil =>
      simp only [Buffers.allocLoop] at h ⊢
      rw [Except.ok.injEq] at h
      subst h
      simp
  | cons i rest ih =>
      by_cases hq : env.queryOk i
      · by_cases hm : env.mapOk i
        · simp only [Buffers.allocLoop, hq, hm, if_true] at h ⊢
          obtain ⟨h1, h2⟩ := ih (acc ++ [⟨env.bufData i, false⟩]) (mapped ++ [i]) h
          constructor
          · rw [h1]; simp; omega
          · rw [h2]; simp
        · simp [Buffers.allocLoop, hq, hm] at h
      · simp [Buffers.allocLoop, hq] at h

/-- C8: when the kernel grants `g < requested` buffers and allocation
succeeds, the pool holds exactly `g` buffers, exactly the regions of indices
`0..g` are mapped, and the streams built over that pool carry `g` as their
buffer count (the length every later operation — enqueue-all, will-block,
cursor exhaustion — iterates over). -/
theorem c8_granted_count_is_pool_size (env : AllocEnv) (requested g : Nat)
    (bufs : List Buffer) (hg : env.granted = some g) (hlt : g < requested)
    (hok : (Buffers.allocate env requested).1 = Except.ok bufs) :
    bufs.length = g ∧
    (Buffers.allocate env requested).2 = List.range g ∧
    (WriteStream.fromBuffers bufs).queued.length = g ∧
    (ReadStream.ofBuffers bufs).buffers.length = g := by
  have halloc : Buffers.allocate env requested =
      Buffers.allocLoop env (List.range g) [] [] := by
    simp [Buffers.allocate, hg, if_pos hlt]
  rw [halloc] at hok ⊢
  obtain ⟨h1, h2⟩ := Buffers.allocLoop_ok env (List.range g) [] [] bufs hok
  have hlen : bufs.length = g := by simpa using h1
  refine ⟨hlen, by simpa using h2, ?_, ?_⟩
  · simp [WriteStream.fromBuffers, hlen]
  · simp [ReadStream.ofBuffers, hlen]

/-- Witness for the C8 theorem: requesting 2 buffers with only 1 granted. -/
theorem c8_witness :
    envGrantOne.granted = some 1 ∧ 1 < 2 ∧
    (Buffers.allocate envGrantOne 2).1 =
      Except.ok [⟨List.replicate 4 0, false⟩] ∧
    (([(⟨List.replicate 4 0, false⟩ : Buffer)].length = 1) ∧
      (Buffers.allocate envGrantOne 2).2 = List.range 1 ∧
      (WriteStream.fromBuffers [⟨List.replicate 4 0, false⟩]).queued.length = 1 ∧
      (ReadStream.ofBuffers [⟨List.replicate 4 0, false⟩]).buffers.length = 1) :=
  ⟨by decide, by decide, by decide,
    c8_granted_count_is_pool_size envGrantOne 2 1 [⟨List.replicate 4 0, false⟩]
      (by decide) (by decide) (by decide)⟩

/-- C1: when the dequeue ioctl succeeds on a valid index, the `dequeue` call
returns exactly the result of the callback (its value or its error) when the
re-enqueue succeeds, and returns the re-enqueue error — discarding the
outcome of the callback, whatever it was — when the re-enqueue fails. -/
theorem c1_dequeue_result_precedence (s : ReadStream) (e : REnv) (d : DqResult)
    (cb : ReadBufferView → Except Nat Nat)
    (hdq : e.dq = Except.ok d) (hidx : d.index < s.buffers.length) :
    (e.qbuf = Except.ok () →
      (s.dequeue e cb).1 = ROutcome.res (cb (s.viewOf d))) ∧
    (∀ c, e.qbuf = Except.error c →
      (s.dequeue e cb).1 = ROutcome.res (Except.error c)) := by
  constructor
  · intro hq
    simp [ReadStream.dequeue, hdq, hq, if_pos hidx]
  · intro c hq
    simp [ReadStream.dequeue, hdq, hq, if_pos hidx]

/-- Witness for the C1 theorem: both branches at a concrete stream, a
callback that fails with error 3, and a successful re-enqueue, under which
the error of the callback is what the call returns. -/
theorem c1_witness :
    (⟨Except.ok ⟨0, 1, 0⟩, Except.ok ()⟩ : REnv).dq =
      Except.ok (⟨0, 1, 0⟩ : DqResult) ∧
    (⟨0, 1, 0⟩ : DqResult).index < rsTwoQueued.buffers.length ∧
    (((⟨Except.ok ⟨0, 1, 0⟩, Except.ok ()⟩ : REnv).qbuf = Except.ok () →
        (rsTwoQueued.dequeue ⟨Except.ok ⟨0, 1, 0⟩, Except.ok ()⟩
            (fun _ => Except.error 3)).1 =
          ROutcome.res (Except.error 3)) ∧
      (∀ c, (⟨Except.ok ⟨0, 1, 0⟩, Except.ok ()⟩ : REnv).qbuf = Except.error c →
        (rsTwoQueued.dequeue ⟨Except.ok ⟨0, 1, 0⟩, Except.ok ()⟩
            (fun _ => Except.error 3)).1 = ROutcome.res (Except.error c))) :=
  ⟨by decide, by decide,
    c1_dequeue_result_precedence rsTwoQueued ⟨Except.ok ⟨0, 1, 0⟩, Except.ok ()⟩
      ⟨0, 1, 0⟩ (fun _ => Except.error 3) (by decide) (by decide)⟩

theorem ReadStream.enqueueAllLoop_ok (qb : Nat → Except Nat Unit)
    (l : List Nat) (s s1 : ReadStream)
    (hl : ∀ x, x ∈ l → x < s.buffers.length)
    (h : ReadStream.enqueueAllLoop qb s l = Except.ok s1) :
    (∀ i, i ∈ l → (s1.buffers.getD i default).queued = true) ∧
    (∀ j, j ∉ l → s1.buffers.getD j default = s.buffers.getD j default) ∧
    s1.buffers.length = s.buffers.length := by
  induction l generalizing s with
  | nil =>
      simp only [ReadStream.enqueueAllLoop] at h
      rw [Except.ok.injEq] at h
      subst h
      simp
  | cons i rest ih =>
      simp only [ReadStream.enqueueAllLoop] at h
      by_cases hq : (s.buffers.getD i default).queued
      · rw [if_pos hq] at h
        obtain ⟨h1, h2, h3⟩ := ih s (fun x hx => hl x (List.mem_cons_of_mem i hx)) h
        refine ⟨?_, ?_, h3⟩
        · intro x hx
          rcases List.mem_cons.mp hx with rfl | hx'
          · by_cases hxr : x ∈ rest
            · exact h1 x hxr
            · rw [h2 x hxr]; exact hq
          · exact h1 x hx'
        · intro j hj
          exact h2 j (fun hj' => hj (List.mem_cons_of_mem i hj'))
      · rw [if_neg hq] at h
        cases hqb : qb i with
        | error c => simp [ReadStream.enqueue, hqb] at h
        | ok u =>
            rw [hqb] at h
            simp only [ReadStream.enqueue] at h
            have hlen2 : (s.setQueued i true).buffers.length = s.buffers.length := by
              simp [ReadStream.setQueued]
            obtain ⟨h1, h2, h3⟩ := ih (s.setQueued i true)
              (fun x hx => by
                rw [hlen2]; exact hl x (List.mem_cons_of_mem i hx)) h
            have hilt : i < s.buffers.length := hl i (List.mem_cons_self i rest)
            refine ⟨?_, ?_, by rw [h3, hlen2]⟩
            · intro x hx
              rcases List.mem_cons.mp hx with rfl | hx'
              · by_cases hxr : x ∈ rest
                · exact h1 x hxr
                · rw [h2 x hxr]
                  simp only [ReadStream.setQueued]
                  rw [getD_set_self _ _ _ _ hilt]
              · exact h1 x hx'
            · intro j hj
              have hji : i ≠ j := fun he => hj (he ▸ List.mem_cons_self i rest)
              rw [h2 j (fun hj' => hj (List.mem_cons_of_mem i hj'))]
              simp only [ReadStream.setQueued]
              rw [getD_set_ne _ _ _ _ _ hji]

theorem setQueued_length (s : ReadStream) (i : Nat) (b : Bool) :
    (s.setQueued i b).buffers.length = s.buffers.length := by
  simp [ReadStream.setQueued]

theorem setQueued_getD (s : ReadStream) (i j : Nat) (b : Bool)
    (hi : i < s.buffers.length) :
    ((s.setQueued i b).buffers.getD j default).queued =
      if j = i then b else (s.buffers.getD j default).queued := by
  by_cases hji : j = i
  · subst hji
    rw [if_pos rfl]
    simp only [ReadStream.setQueued]
    rw [getD_set_self _ _ _ _ hi]
  · rw [if_neg hji]
    simp only [ReadStream.setQueued]
    rw [getD_set_ne _ _ _ _ _ (fun h => hji h.symm)]

/-- C5 (amended): on a read stream whose buffers are all queued, a dequeue of
a valid index leaves, at the moment the callback runs, exactly the dequeued
buffer unqueued (conjuncts 1 and 2, about the intermediate state of
`ReadStream::dequeue`); when the re-enqueue succeeds, every buffer is queued
again after the call returns (conjunct 3); and a successful `enqueue_all` —
the last constructor step before streaming starts — leaves every buffer
queued (conjunct 4). When the re-enqueue fails the dequeued buffer instead
stays unqueued after the call returns. -/
theorem c5_read_stream_queue_invariant (s : ReadStream) (e : REnv)
    (d : DqResult) (cb : ReadBufferView → Except Nat Nat)
    (hall : s.allQueued) (hdq : e.dq = Except.ok d)
    (hidx : d.index < s.buffers.length) :
    ((s.setQueued d.index false).buffers.getD d.index default).queued = false ∧
    (∀ j, j < s.buffers.length → j ≠ d.index →
      ((s.setQueued d.index false).buffers.getD j default).queued = true) ∧
    (e.qbuf = Except.ok () → (s.dequeue e cb).2.allQueued) ∧
    (∀ (qb : Nat → Except Nat Unit) (s0 s1 : ReadStream),
      ReadStream.enqueue_all qb s0 = Except.ok s1 → s1.allQueued) := by
  refine ⟨?_, ?_, ?_, ?_⟩
  · rw [setQueued_getD s d.index d.index false hidx, if_pos rfl]
  · intro j hj hne
    rw [setQueued_getD s d.index j false hidx, if_neg hne]
    exact hall j hj
  · intro hq
    have hpost : (s.dequeue e cb).2 =
        (s.setQueued d.index false).setQueued d.index true := by
      simp [ReadStream.dequeue, hdq, hq, if_pos hidx]
    rw [hpost]
    intro j hj
    rw [setQueued_length, setQueued_length] at hj
    have hidx2 : d.index < (s.setQueued d.index false).buffers.length := by
      rw [setQueued_length]; exact hidx
    rw [setQueued_getD _ d.index j true hidx2]
    by_cases hje : j = d.index
    · rw [if_pos hje]
    · rw [if_neg hje, setQueued_getD s d.index j false hidx, if_neg hje]
      exact hall j hj
  · intro qb s0 s1 h
    obtain ⟨h1, _, h3⟩ := ReadStream.enqueueAllLoop_ok qb
      (List.range s0.buffers.length) s0 s1
      (fun x hx => List.mem_range.mp hx) h
    intro j hj
    rw [h3] at hj
    exact h1 j (List.mem_range.mpr hj)

/-- Witness for the C5 theorem: a two-buffer stream with both buffers queued,
dequeuing buffer 0 with a successful re-enqueue. -/
theorem c5_witness :
    rsTwoQueued.allQueued ∧
    (⟨Except.ok ⟨0, 1, 0⟩, Except.ok ()⟩ : REnv).dq =
      Except.ok (⟨0, 1, 0⟩ : DqResult) ∧
    (⟨0, 1, 0⟩ : DqResult).index < rsTwoQueued.buffers.length ∧
    (((rsTwoQueued.setQueued 0 false).buffers.getD 0 default).queued = false ∧
      (∀ j, j < rsTwoQueued.buffers.length → j ≠ (0 : Nat) →
        ((rsTwoQueued.setQueued 0 false).buffers.getD j default).queued = true) ∧
      ((⟨Except.ok ⟨0, 1, 0⟩, Except.ok ()⟩ : REnv).qbuf = Except.ok () →
        (rsTwoQueued.dequeue ⟨Except.ok ⟨0, 1, 0⟩, Except.ok ()⟩
            (fun _ => Except.ok 0)).2.allQueued) ∧
      (∀ (qb : Nat → Except Nat Unit) (s0 s1 : ReadStream),
        ReadStream.enqueue_all qb s0 = Except.ok s1 → s1.allQueued)) :=
  ⟨by
      show ∀ j, j < 2 → ((rsTwoQueued.buffers.getD j default).queued = true)
      decide,
    by decide, by decide,
    c5_read_stream_queue_invariant rsTwoQueued
      ⟨Except.ok ⟨0, 1, 0⟩, Except.ok ()⟩ ⟨0, 1, 0⟩ (fun _ => Except.ok 0)
      (by
        show ∀ j, j < 2 → ((rsTwoQueued.buffers.getD j default).queued = true)
        decide)
      (by decide) (by decide)⟩

theorem bfContains_ERROR_iff (f : Nat) :
    bfContains f BufFlag.ERROR = true ↔ Nat.testBit f 6 = true := by
  have h64 : BufFlag.ERROR = 2 ^ 6 := by norm_num [BufFlag.ERROR]
  unfold bfContains
  rw [h64, Nat.and_two_pow]
  cases h : f.testBit 6
  · simp
  · simp

/-- C10: for the view built by `ReadStream::dequeue` from a DQBUF report `d`
with `bytesused` at most the mapped capacity of the buffer: dereferencing yields
exactly the first `bytesused` bytes of the buffer (conjuncts 1 and 2),
`raw_buffer` is the full capacity-length region (conjunct 3) of which the
dereferenced slice is a prefix (conjunct 4), the dereferenced data is the
same whatever the flags word says (conjunct 5), and `is_error` is true
exactly when the kernel set the ERROR flag bit (conjunct 6). -/
theorem c10_read_view_exposes_used_bytes (s : ReadStream) (d : DqResult)
    (hb : d.bytesused ≤ (s.buffers.getD d.index default).data.length) :
    (s.viewOf d).deref.length = d.bytesused ∧
    (s.viewOf d).deref =
      ((s.buffers.getD d.index default).data).take d.bytesused ∧
    (s.viewOf d).raw_buffer = (s.buffers.getD d.index default).data ∧
    (s.viewOf d).deref = (s.viewOf d).raw_buffer.take d.bytesused ∧
    (∀ f2 : Nat,
      (ReadBufferView.mk f2 (s.viewOf d).data (s.viewOf d).bytesused).deref =
        (s.viewOf d).deref) ∧
    ((s.viewOf d).is_error = true ↔ Nat.testBit d.flags 6 = true) := by
  refine ⟨?_, rfl, rfl, rfl, fun f2 => rfl, ?_⟩
  · simp only [ReadBufferView.deref, ReadStream.viewOf, List.length_take]
    omega
  · exact bfContains_ERROR_iff d.flags

/-- Witness for the C10 theorem: buffer 0 of a concrete stream, one used
byte, and a flags word with the ERROR bit set. -/
theorem c10_witness :
    (⟨0, 1, 64⟩ : DqResult).bytesused ≤
      (rsTwoQueued.buffers.getD 0 default).data.length ∧
    ((rsTwoQueued.viewOf ⟨0, 1, 64⟩).deref.length = 1 ∧
      (rsTwoQueued.viewOf ⟨0, 1, 64⟩).deref =
        ((rsTwoQueued.buffers.getD 0 default).data).take 1 ∧
      (rsTwoQueued.viewOf ⟨0, 1, 64⟩).raw_buffer =
        (rsTwoQueued.buffers.getD 0 default).data ∧
      (rsTwoQueued.viewOf ⟨0, 1, 64⟩).deref =
        (rsTwoQueued.viewOf ⟨0, 1, 64⟩).raw_buffer.take 1 ∧
      (∀ f2 : Nat,
        (ReadBufferView.mk f2 (rsTwoQueued.viewOf ⟨0, 1, 64⟩).data
            (rsTwoQueued.viewOf ⟨0, 1, 64⟩).bytesused).deref =
          (rsTwoQueued.viewOf ⟨0, 1, 64⟩).deref) ∧
      ((rsTwoQueued.viewOf ⟨0, 1, 64⟩).is_error = true ↔
        Nat.testBit 64 6 = true)) :=
  ⟨by decide, c10_read_view_exposes_used_bytes rsTwoQueued ⟨0, 1, 64⟩ (by decide)⟩

/-- C3 (amended): dropping a `ReadStream` issues the stream-off ioctl strictly
before any munmap — every munmap in the drop trace sits at a position after
position 0, which holds the stream-off event — and the trace does not depend
on whether the stream-off ioctl succeeded, since its error is discarded.
`WriteStream` has no `Drop` impl, so no stream-off precedes its unmaps. -/
theorem c3_read_drop_streamoff_before_unmap (so : Except Nat Unit) (n k i : Nat)
    (h : (ReadStream.dropEvents so n).get? k = some (DropEv.munmap i)) :
    (0 < k ∧ (ReadStream.dropEvents so n).get? 0 = some DropEv.streamOff) ∧
    ∀ so2 : Except Nat Unit,
      ReadStream.dropEvents so2 n = ReadStream.dropEvents so n := by
  refine ⟨⟨?_, rfl⟩, fun so2 => rfl⟩
  cases k with
  | zero => simp [ReadStream.dropEvents] at h
  | succ m => omega

/-- Witness for the C3 theorem: a one-buffer pool whose drop trace has the
munmap at position 1. -/
theorem c3_witness :
    (ReadStream.dropEvents (Except.error 5) 1).get? 1 =
      some (DropEv.munmap 0) ∧
    ((0 < 1 ∧ (ReadStream.dropEvents (Except.error 5) 1).get? 0 =
        some DropEv.streamOff) ∧
      ∀ so2 : Except Nat Unit,
        ReadStream.dropEvents so2 1 = ReadStream.dropEvents (Except.error 5) 1) :=
  ⟨by decide, c3_read_drop_streamoff_before_unmap (Except.error 5) 1 1 0 (by decide)⟩

theorem WriteStream.enqueueAt_third (s : WriteStream) (bi : Nat) (e : WEnv)
    (d : Bool) : (WriteStream.enqueueAt s bi e d).2.2 = d := by
  unfold WriteStream.enqueueAt
  by_cases h1 : bi < s.queued.length
  · rw [if_pos h1]
    by_cases h2 : s.queued.getD bi false = true
    · rw [if_pos h2]
    · rw [if_neg h2]
      cases e.cbRes with
      | error c => rfl
      | ok v =>
          cases e.qbuf with
          | error c => rfl
          | ok u => rfl
  · rw [if_neg h1]

theorem WriteStream.enqueue_dequeued_iff (s : WriteStream) (e : WEnv) :
    (s.enqueue e).2.2 = true ↔ s.next_unqueued_buffer = none := by
  cases hc : s.next_unqueued_buffer with
  | some i =>
      simp only [WriteStream.enqueue, hc, WriteStream.enqueueAt_third]
      simp
  | none =>
      cases hd : e.dq with
      | error c => simp [WriteStream.enqueue, hc, hd]
      | ok idx =>
          by_cases h : idx < s.queued.length
          · simp only [WriteStream.enqueue, hc, hd, if_pos h,
              WriteStream.enqueueAt_third]
          · simp only [WriteStream.enqueue, hc, hd, if_neg h]

theorem WriteStream.enqueue_ok_step (s : WriteStream) (e : WEnv)
    (hinv : s.inv) (hok : e.okFor s) :
    (∃ v, (s.enqueue e).1 = WOutcome.ok v) ∧
    (s.enqueue e).2.1.inv ∧
    (s.enqueue e).2.1.queued.length = s.queued.length ∧
    (s.enqueue e).2.1.next_unqueued_buffer =
      stepCursor s.queued.length s.next_unqueued_buffer := by
  obtain ⟨⟨v, hcb⟩, hqb, hdqc⟩ := hok
  cases hc : s.next_unqueued_buffer with
  | some i =>
      obtain ⟨hi, hge, hlt⟩ := hinv.1 i hc
      have hqi : s.queued.getD i false = false := hge i (le_refl i) hi
      have hstep : s.enqueue e =
          (WOutcome.ok v,
            ⟨s.queued.set i true,
              if i + 1 = s.queued.length then none else some (i + 1)⟩,
            false) := by
        simp only [WriteStream.enqueue, hc, WriteStream.enqueueAt, if_pos hi,
          hqi, hcb, hqb]
        simp
      rw [hstep]
      refine ⟨⟨v, rfl⟩, ?_, List.length_set s.queued i true, ?_⟩
      · by_cases he : i + 1 = s.queued.length
        · rw [if_pos he]
          constructor
          · intro i' hi'
            simp at hi'
          · intro _ j hj
            rw [List.length_set] at hj
            by_cases hji : j = i
            · subst hji
              exact getD_set_self s.queued j true false hi
            · rw [getD_set_ne s.queued i j true false (fun h => hji h.symm)]
              exact hlt j (by omega)
        · rw [if_neg he]
          constructor
          · intro i' hi'
            injection hi' with hi'
            subst hi'
            refine ⟨by simpa using by omega, ?_, ?_⟩
            · intro j hj1 hj2
              rw [List.length_set] at hj2
              rw [getD_set_ne s.queued i j true false (by omega)]
              exact hge j (by omega) hj2
            · intro j hj
              by_cases hji : j = i
              · subst hji
                exact getD_set_self s.queued j true false hi
              · rw [getD_set_ne s.queued i j true false (fun h => hji h.symm)]
                exact hlt j (by omega)
          · intro hnone
            simp at hnone
      · by_cases he : i + 1 = s.queued.length
        · rw [if_pos he]
          simp [stepCursor, he]
        · rw [if_neg he]
          simp [stepCursor, he]
  | none =>
      rw [hc] at hdqc
      obtain ⟨idx, hdq, hxlt, hxq⟩ := hdqc rfl
      have hgd : (s.queued.set idx false).getD idx false = false :=
        getD_set_self s.queued idx false false hxlt
      have hstep : s.enqueue e =
          (WOutcome.ok v,
            ⟨(s.queued.set idx false).set idx true, none⟩, true) := by
        simp only [WriteStream.enqueue, hc, hdq, if_pos hxlt,
          WriteStream.enqueueAt, List.length_set, hgd, hcb, hqb]
        simp
      rw [hstep]
      refine ⟨⟨v, rfl⟩, ?_, ?_, rfl⟩
      · constructor
        · intro i' hi'
          simp at hi'
        · intro _ j hj
          simp only [List.length_set] at hj
          by_cases hji : j = idx
          · subst hji
            exact getD_set_self (s.queued.set j false) j true false
              (by simpa using hxlt)
          · rw [getD_set_ne (s.queued.set idx false) idx j true false
              (fun h => hji h.symm)]
            rw [getD_set_ne s.queued idx j false false (fun h => hji h.symm)]
            exact hinv.2 hc j hj
      · simp

theorem WriteStream.run_ok (envs : List WEnv) (s : WriteStream)
    (hinv : s.inv) (hok : okRun s envs) :
    (s.run envs).inv ∧ (s.run envs).queued.length = s.queued.length ∧
    (s.run envs).next_unqueued_buffer =
      cursorIter s.queued.length s.next_unqueued_buffer envs.length := by
  induction envs generalizing s with
  | nil => exact ⟨hinv, rfl, rfl⟩
  | cons e rest ih =>
      obtain ⟨hf, hrest⟩ := hok
      obtain ⟨_, hinv2, hlen2, hcur2⟩ := WriteStream.enqueue_ok_step s e hinv hf
      obtain ⟨ha, hb, hd⟩ := ih (s.enqueue e).2.1 hinv2 hrest
      simp only [WriteStream.run]
      refine ⟨ha, by rw [hb, hlen2], ?_⟩
      rw [hd, hlen2, hcur2]
      rfl

theorem cursorIter_none (n k : Nat) : cursorIter n none k = none := by
  induction k with
  | zero => rfl
  | succ m ih => simpa [cursorIter, stepCursor] using ih

theorem cursorIter_some (n i k : Nat) (h : i < n) :
    cursorIter n (some i) k = if i + k < n then some (i + k) else none := by
  induction k generalizing i with
  | zero => simp [cursorIter, h]
  | succ m ih =>
      simp only [cursorIter, stepCursor]
      by_cases h1 : i + 1 = n
      · rw [if_pos h1, cursorIter_none]
        rw [if_neg (by omega : ¬ i + (m + 1) < n)]
      · have h2 : i + 1 < n := by omega
        rw [if_neg h1, ih (i + 1) h2]
        by_cases h3 : i + (m + 1) < n
        · rw [if_pos (by omega : i + 1 + m < n), if_pos h3]
          congr 1
          omega
        · rw [if_neg (by omega : ¬ i + 1 + m < n), if_neg h3]

theorem WriteStream.inv_new (n : Nat) (hn : 0 < n) : (WriteStream.new n).inv := by
  constructor
  · intro i hi
    have h0 : i = 0 := by
      simpa [WriteStream.new] using hi.symm
    subst h0
    refine ⟨by simpa [WriteStream.new] using hn, ?_, ?_⟩
    · intro j _ _
      simp [WriteStream.new, getD_replicate_false]
    · intro j hj
      omega
  · intro h
    simp [WriteStream.new] at h

/-- C9 (amended): in a run of a fresh write stream over `n` buffers in which
every enqueue call so far fully succeeded, whenever the cursor holds `some i`
the buffer at index `i` and all buffers at indices after `i` are unqueued
(and every index before `i` is queued). The original direction of the claim —
indices before the cursor unqueued — fails already after one successful call,
and after failed calls even this amended invariant can be violated (see the
enqueue assert claim). -/
theorem c9_write_cursor_invariant (n : Nat) (envs : List WEnv) (hn : 0 < n)
    (hok : okRun (WriteStream.new n) envs) :
    ∀ i, ((WriteStream.new n).run envs).next_unqueued_buffer = some i →
      i < n ∧
      (∀ j, i ≤ j → j < n →
        ((WriteStream.new n).run envs).queued.getD j false = false) ∧
      (∀ j, j < i →
        ((WriteStream.new n).run envs).queued.getD j false = true) := by
  obtain ⟨hinv, hlen, _⟩ :=
    WriteStream.run_ok envs (WriteStream.new n) (WriteStream.inv_new n hn) hok
  have hlenn : (WriteStream.new n).queued.length = n := by
    simp [WriteStream.new]
  rw [hlenn] at hlen
  intro i hi
  obtain ⟨h1, h2, h3⟩ := hinv.1 i hi
  rw [hlen] at h1
  exact ⟨h1, fun j hj1 hj2 => h2 j hj1 (by rw [hlen]; exact hj2), h3⟩

/-- Witness for the C9 theorem: a fresh one-buffer stream with no calls made;
the cursor is `some 0` and buffer 0 is unqueued. -/
theorem c9_witness :
    0 < 1 ∧
    ∀ i, ((WriteStream.new 1).run []).next_unqueued_buffer = some i →
      i < 1 ∧
      (∀ j, i ≤ j → j < 1 →
        ((WriteStream.new 1).run []).queued.getD j false = false) ∧
      (∀ j, j < i →
        ((WriteStream.new 1).run []).queued.getD j false = true) :=
  ⟨by decide, c9_write_cursor_invariant 1 [] (by decide) trivial⟩

/-- C6 (amended): a `WriteStream::enqueue` call issues the dequeue ioctl
exactly when `next_unqueued_buffer` is `None` at the start of the call
(conjunct 1), and in an error-free run from a fresh stream over `n` buffers
the cursor is `some k` after `k < n` calls and `None` after `n` or more
calls (conjunct 2) — so the first `n` calls use the never-queued cursor
buffer without dequeuing and every later error-free call dequeues first.
After a failed call the cursor is restored to `Some`, so a call made after
exhaustion can run without dequeuing. -/
theorem c6_dequeue_iff_cursor_empty (s : WriteStream) (e : WEnv) (n : Nat)
    (envs : List WEnv) (hn : 0 < n) (hok : okRun (WriteStream.new n) envs) :
    ((s.enqueue e).2.2 = true ↔ s.next_unqueued_buffer = none) ∧
    ((WriteStream.new n).run envs).next_unqueued_buffer =
      (if envs.length < n then some envs.length else none) := by
  refine ⟨WriteStream.enqueue_dequeued_iff s e, ?_⟩
  obtain ⟨_, _, hcur⟩ :=
    WriteStream.run_ok envs (WriteStream.new n) (WriteStream.inv_new n hn) hok
  rw [hcur]
  have hlenn : (WriteStream.new n).queued.length = n := by
    simp [WriteStream.new]
  have hcn : (WriteStream.new n).next_unqueued_buffer = some 0 := rfl
  rw [hlenn, hcn, cursorIter_some n 0 envs.length hn]
  simp

/-- Witness for the C6 theorem: a concrete cursor-empty stream (the call
dequeues) and a fresh two-buffer stream after one successful call (cursor at
index 1). -/
theorem c6_witness :
    0 < 2 ∧
    (((⟨[true, true], none⟩ : WriteStream).enqueue envOkNoDq).2.2 = true ↔
      (⟨[true, true], none⟩ : WriteStream).next_unqueued_buffer = none) ∧
    ((WriteStream.new 2).run [envOkNoDq]).next_unqueued_buffer =
      (if [envOkNoDq].length < 2 then some [envOkNoDq].length else none) :=
  ⟨by decide,
    (c6_dequeue_iff_cursor_empty ⟨[true, true], none⟩ envOkNoDq 2 [envOkNoDq]
      (by decide)
      ⟨⟨⟨0, by decide⟩, by decide, fun h => by simp [WriteStream.new] at h⟩,
        trivial⟩).1,
    (c6_dequeue_iff_cursor_empty ⟨[true, true], none⟩ envOkNoDq 2 [envOkNoDq]
      (by decide)
      ⟨⟨⟨0, by decide⟩, by decide, fun h => by simp [WriteStream.new] at h⟩,
        trivial⟩).2⟩

theorem WriteStream.enqueueAt_err (s : WriteStream) (bi c : Nat) (e : WEnv)
    (d : Bool) (hlt : bi < s.queued.length)
    (hq : s.queued.getD bi false = false)
    (htrig : e.triggerErr = some c) :
    WriteStream.enqueueAt s bi e d =
      (WOutcome.err c, ⟨s.queued, some bi⟩, d) := by
  unfold WriteStream.enqueueAt
  rw [if_pos hlt, if_neg (by rw [hq]; exact Bool.false_ne_true)]
  cases hcb : e.cbRes with
  | error c2 =>
      have : c2 = c := by
        simpa [WEnv.triggerErr, hcb] using htrig
      subst this
      rfl
  | ok v =>
      cases hqb : e.qbuf with
      | error c2 =>
          have : c2 = c := by
            simpa [WEnv.triggerErr, hcb, hqb] using htrig
          subst this
          rfl
      | ok u =>
          exact absurd htrig (by simp [WEnv.triggerErr, hcb, hqb])

/-- C7: when a `WriteStream::enqueue` call selects buffer `bi` (from the
cursor — then known unqueued — or by dequeuing) and the callback or the
re-enqueue QBUF fails, the call returns that triggering error (conjunct 1)
and records `bi` in `next_unqueued_buffer` (conjunct 2), so that the
immediately following call selects that same buffer without issuing any
dequeue ioctl (conjunct 3). -/
theorem c7_failure_restores_cursor (s : WriteStream) (e : WEnv) (bi c : Nat)
    (hsel : s.selects e = some bi)
    (hnq : s.next_unqueued_buffer = some bi →
      s.queued.getD bi false = false)
    (htrig : e.triggerErr = some c) :
    (s.enqueue e).1 = WOutcome.err c ∧
    (s.enqueue e).2.1.next_unqueued_buffer = some bi ∧
    ∀ e2 : WEnv, ((s.enqueue e).2.1.enqueue e2).2.2 = false ∧
      (s.enqueue e).2.1.selects e2 = some bi := by
  cases hc : s.next_unqueued_buffer with
  | some i =>
      simp only [WriteStream.selects, hc] at hsel
      have hlt : i < s.queued.length := by
        by_contra h
        rw [if_neg h] at hsel
        exact Option.noConfusion hsel
      rw [if_pos hlt] at hsel
      obtain rfl : bi = i := by
        have := hsel.symm
        simpa using this
      have hq : s.queued.getD bi false = false := hnq hc
      have hstep : s.enqueue e =
          (WOutcome.err c, ⟨s.queued, some bi⟩, false) := by
        simp only [WriteStream.enqueue, hc]
        exact WriteStream.enqueueAt_err s bi c e false hlt hq htrig
      rw [hstep]
      refine ⟨rfl, rfl, fun e2 => ⟨?_, ?_⟩⟩
      · simp only [WriteStream.enqueue, WriteStream.enqueueAt_third]
      · simp only [WriteStream.selects]
        rw [if_pos hlt]
  | none =>
      cases hd : e.dq with
      | error c2 =>
          simp only [WriteStream.selects, hc, hd] at hsel
          exact absurd hsel (by simp)
      | ok idx =>
          simp only [WriteStream.selects, hc, hd] at hsel
          have hlt : idx < s.queued.length := by
            by_contra h
            rw [if_neg h] at hsel
            exact Option.noConfusion hsel
          rw [if_pos hlt] at hsel
          obtain rfl : bi = idx := by
            have := hsel.symm
            simpa using this
          have hq2 : (s.queued.set bi false).getD bi false = false :=
            getD_set_self s.queued bi false false hlt
          have hstep : s.enqueue e =
              (WOutcome.err c, ⟨s.queued.set bi false, some bi⟩, true) := by
            simp only [WriteStream.enqueue, hc, hd, if_pos hlt]
            exact WriteStream.enqueueAt_err ⟨s.queued.set bi false, none⟩ bi c
              e true (by simpa using hlt) hq2 htrig
          rw [hstep]
          refine ⟨rfl, rfl, fun e2 => ⟨?_, ?_⟩⟩
          · simp only [WriteStream.enqueue, WriteStream.enqueueAt_third]
          · simp only [WriteStream.selects]
            rw [if_pos (by simpa using hlt)]

/-- Witness for the C7 theorem: a one-buffer stream whose cursor points at
buffer 0 and a callback failing with error 5. -/
theorem c7_witness :
    (⟨[false], some 0⟩ : WriteStream).selects
        ⟨Except.error 9, Except.error 5, Except.ok ()⟩ = some 0 ∧
    ((⟨[false], some 0⟩ : WriteStream).next_unqueued_buffer = some 0 →
      (⟨[false], some 0⟩ : WriteStream).queued.getD 0 false = false) ∧
    (⟨Except.error 9, Except.error 5, Except.ok ()⟩ : WEnv).triggerErr =
      some 5 ∧
    (((⟨[false], some 0⟩ : WriteStream).enqueue
        ⟨Except.error 9, Except.error 5, Except.ok ()⟩).1 = WOutcome.err 5 ∧
      ((⟨[false], some 0⟩ : WriteStream).enqueue
        ⟨Except.error 9, Except.error 5, Except.ok ()⟩).2.1.next_unqueued_buffer =
        some 0 ∧
      ∀ e2 : WEnv,
        (((⟨[false], some 0⟩ : WriteStream).enqueue
            ⟨Except.error 9, Except.error 5, Except.ok ()⟩).2.1.enqueue e2).2.2 =
          false ∧
        ((⟨[false], some 0⟩ : WriteStream).enqueue
            ⟨Except.error 9, Except.error 5, Except.ok ()⟩).2.1.selects e2 =
          some 0) :=
  ⟨by decide, fun _ => by decide, by decide,
    c7_failure_restores_cursor ⟨[false], some 0⟩
      ⟨Except.error 9, Except.error 5, Except.ok ()⟩ 0 5 (by decide)
      (fun _ => by decide) (by decide)⟩
